import Mathlib

/-!
Shallow embedding of the EasyAsync core (src/lib/EasyAsync/src/EasyAsync.h):
the `TaskState` lifecycle machine, `TaskHandle` bookkeeping, the
`CallbackQueue` FIFO drain, `Task::run` / `Task::executeTask`
orchestration, and the `Async` facade's `update`.

Modelling conventions:
- the FreeRTOS launcher is an external collaborator: its outcome is a
  parameter (`Option Nat`, the created context handle or failure);
- `millis()` is an explicit `now : Nat` argument (values of the uint32
  clock); uint32 subtraction is `sub32`;
- user work callables are `Except Unit α` values (normal result or a
  thrown exception); callback delivery is recorded as events;
- `tskNO_AFFINITY` is the ESP-IDF sentinel `0x7FFFFFFF`.
-/

/-- uint32 subtraction `a - b` for clock values `a b < 2^32`,
matching C unsigned wraparound. -/
def sub32 (a b : Nat) : Nat := (a + 4294967296 - b) % 4294967296

/-- `tskNO_AFFINITY` sentinel from ESP-IDF FreeRTOS. -/
def tskNO_AFFINITY : Int := 2147483647

/-- `AsyncConfig` (EasyAsync.h lines 22-28), process-wide defaults. -/
structure AsyncConfig where
  defaultStackSize : Nat := 4096
  defaultPriority : Nat := 1
  defaultCore : Int := tskNO_AFFINITY
  maxConcurrentTasks : Nat := 10
  executeCallbacksInLoop : Bool := true
deriving Repr, DecidableEq

/-- `TaskState` enum (EasyAsync.h lines 30-36). -/
inductive TaskState where
  | Pending
  | Running
  | Completed
  | Failed
  | Cancelled
deriving Repr, DecidableEq

/-- Terminal states of the lifecycle. -/
def TaskState.isTerminal : TaskState → Bool
  | .Completed => true
  | .Failed => true
  | .Cancelled => true
  | _ => false

/-- `TaskConfig` (EasyAsync.h lines 95-102); zero / `tskNO_AFFINITY` fields
are sentinels meaning "use the process-wide default". -/
structure TaskConfig where
  stackSize : Nat := 0
  priority : Nat := 0
  core : Int := tskNO_AFFINITY
  name : Option String := none
  timeoutMs : Nat := 0
  executeInLoop : Bool := true
deriving Repr, DecidableEq

/-- `TaskHandle` fields (EasyAsync.h lines 152-157); the opaque FreeRTOS
`TaskHandle_t` is modelled as `Option Nat` (`none` = `nullptr`). -/
structure TaskHandle where
  taskHandle : Option Nat := none
  state : TaskState := .Pending
  cancelled : Bool := false
  startTime : Nat := 0
  endTime : Nat := 0
deriving Repr, DecidableEq

/-- The default-constructed `TaskHandle` (EasyAsync.h lines 106-107). -/
def TaskHandle.init : TaskHandle := {}

/-- `TaskHandle::setHandle` (EasyAsync.h lines 109-114): records the
context handle, moves to `Running`, stamps the start time. -/
def TaskHandle.setHandle (h : TaskHandle) (v : Nat) (now : Nat) : TaskHandle :=
  { h with taskHandle := some v, state := .Running, startTime := now }

/-- `TaskHandle::setState` (EasyAsync.h lines 120-128): overwrites the
state; entering a terminal state stamps the end time. -/
def TaskHandle.setState (h : TaskHandle) (s : TaskState) (now : Nat) : TaskHandle :=
  if s.isTerminal then { h with state := s, endTime := now }
  else { h with state := s }

/-- `TaskHandle::isCancelled` (EasyAsync.h line 130). -/
def TaskHandle.isCancelled (h : TaskHandle) : Bool := h.cancelled

/-- `TaskHandle::cancel` (EasyAsync.h lines 132-140): sets the flag;
if a context handle exists and the state is `Running`, transitions to
`Cancelled` (stamping the end time), force-terminates the context and
clears the handle. -/
def TaskHandle.cancel (h : TaskHandle) (now : Nat) : TaskHandle :=
  let h1 := { h with cancelled := true }
  if h1.taskHandle.isSome ∧ h1.state = .Running then
    { h1.setState .Cancelled now with taskHandle := none }
  else h1

/-- `TaskHandle::isRunning` (EasyAsync.h lines 142-144). -/
def TaskHandle.isRunning (h : TaskHandle) : Bool :=
  h.state = .Running && !h.cancelled

/-- `TaskHandle::getExecutionTime` (EasyAsync.h lines 146-150). -/
def TaskHandle.getExecutionTime (h : TaskHandle) (now : Nat) : Nat :=
  if h.startTime = 0 then 0
  else if h.endTime = 0 then sub32 now h.startTime
  else sub32 h.endTime h.startTime

/-- Observable effects of the wrapper body: the work callable's body ran;
the completion callback was enqueued on the `CallbackQueue`; the
completion callback was invoked inline on the worker thread. -/
inductive ExecEvent (α : Type) where
  | workRun
  | enqueuedCb (v : α)
  | inlineCb (v : α)
deriving Repr, DecidableEq

/-- The values delivered to the completion callback (by either path)
among a list of events. -/
def callbackValues {α : Type} : List (ExecEvent α) → List α
  | [] => []
  | .workRun :: es => callbackValues es
  | .enqueuedCb v :: es => v :: callbackValues es
  | .inlineCb v :: es => v :: callbackValues es

/-- `Task::executeTask` (result overload, EasyAsync.h lines 305-336;
the void overload at lines 272-303 is the `α := Unit` instance of the
same shape). `work` is the work callable's outcome (`.error` = it threw);
`cancelledDuringWork` models the cancellation flag being set by another
thread between the entry check and the post-work check. Returns the
updated handle and the observable events. -/
def Task.executeTask {α : Type} (h : TaskHandle) (cfg : TaskConfig)
    (work : Except Unit α) (cancelledDuringWork : Bool) (now : Nat) :
    TaskHandle × List (ExecEvent α) :=
  if h.isCancelled then (h, [])
  else
    match work with
    | .error _ => (h.setState .Failed now, [.workRun])
    | .ok v =>
      let h1 := { h with cancelled := h.cancelled || cancelledDuringWork }
      if !h1.isCancelled then
        let h2 := h1.setState .Completed now
        if cfg.executeInLoop then (h2, [.workRun, .enqueuedCb v])
        else (h2, [.workRun, .inlineCb v])
      else (h1, [.workRun])

/-- The stack size, priority and core that `Task::run` hands to the
launcher (`xTaskCreate` / `xTaskCreatePinnedToCore`), and whether the
pinned variant is used. -/
structure LaunchRequest where
  stackSize : Nat
  priority : Nat
  core : Int
  pinned : Bool
deriving Repr, DecidableEq

/-- `Task::run` (EasyAsync.h lines 189-243). `hasFunc` is whether a work
callable is bound (`taskFunc` non-null); `launchResult` is the launcher's
outcome (`some v` = created context `v`, `none` = `pdPASS` not returned).
Returns the C++ return value, the updated handle, and the launch request
issued (if any). -/
def Task.run (hasFunc : Bool) (cfg : TaskConfig) (g : AsyncConfig)
    (h : TaskHandle) (launchResult : Option Nat) (now : Nat) :
    Bool × TaskHandle × Option LaunchRequest :=
  if !hasFunc then (false, h, none)
  else
    let stackSize := if cfg.stackSize > 0 then cfg.stackSize else g.defaultStackSize
    let priority := if cfg.priority > 0 then cfg.priority else g.defaultPriority
    let core := if cfg.core ≠ tskNO_AFFINITY then cfg.core else g.defaultCore
    let req : LaunchRequest :=
      { stackSize := stackSize, priority := priority, core := core,
        pinned := core ≠ tskNO_AFFINITY }
    match launchResult with
    | none => (false, h.setState .Failed now, some req)
    | some v => (true, h.setHandle v now, some req)

/-- One iteration step of `CallbackQueue::process` (EasyAsync.h lines
53-69): pop the head, run it, append whatever was enqueued while it ran
(one batch of concurrent arrivals per executed thunk), loop until the
queue is empty.  Thunks are identified by `Nat` ids; the executed ids are
returned in execution order. -/
def CallbackQueue.processAux : List Nat → List (List Nat) → List Nat
  | [], _ => []
  | c :: rest, [] => c :: CallbackQueue.processAux rest []
  | c :: rest, b :: arrs => c :: CallbackQueue.processAux (rest ++ b) arrs
termination_by q arrs => q.length + (arrs.map List.length).sum
decreasing_by
  all_goals simp [List.length_append]
  omega

/-- `CallbackQueue::process` (EasyAsync.h lines 53-69): tries the lock
without blocking (`lockFree` = the try-acquire succeeded); if held by
another drain it returns at once leaving the queue untouched; otherwise
it drains until empty. Returns (executed ids in order, final queue). -/
def CallbackQueue.process (lockFree : Bool) (q : List Nat)
    (arrivals : List (List Nat)) : List Nat × List Nat :=
  if lockFree then (CallbackQueue.processAux q arrivals, []) else ([], q)

/-- `Async::update` (EasyAsync.h lines 348-352): drains the
`CallbackQueue` iff the process-wide `executeCallbacksInLoop` flag is
set. -/
def Async.update (g : AsyncConfig) (lockFree : Bool) (q : List Nat)
    (arrivals : List (List Nat)) : List Nat × List Nat :=
  if g.executeCallbacksInLoop then CallbackQueue.process lockFree q arrivals
  else ([], q)

/-! ## Theorems -/

/-- C4: a result-producing task whose work callable returns normally with
the cancellation flag unset at that moment transitions to `Completed` and
the completion callable is delivered exactly once, with exactly the value
the work callable produced. -/
theorem executeTask_ok_completes {α : Type} (h : TaskHandle) (cfg : TaskConfig)
    (v : α) (now : Nat) (hc : h.cancelled = false) :
    (Task.executeTask h cfg (.ok v) false now).1.state = .Completed ∧
    callbackValues (Task.executeTask h cfg (.ok v) false now).2 = [v] := by
  simp only [Task.executeTask, TaskHandle.isCancelled, hc]
  by_cases hl : cfg.executeInLoop <;>
    simp [hl, TaskHandle.setState, TaskState.isTerminal, callbackValues]

/-- Witness for C4 at a concrete input. -/
theorem executeTask_ok_completes_witness :
    (Task.executeTask TaskHandle.init {} (.ok 42) false 7).1.state = .Completed ∧
    callbackValues (Task.executeTask TaskHandle.init {} (.ok (42 : Nat)) false 7).2 = [42] :=
  executeTask_ok_completes TaskHandle.init {} 42 7 rfl

/-- C5: a task whose cancellation flag is set strictly before the wrapper
body invokes the work callable never runs the work callable's body and
never delivers (enqueues or inlines) the completion callback: the wrapper
returns immediately, leaving the handle unchanged and producing no
observable events. -/
theorem executeTask_cancelled_noop {α : Type} (h : TaskHandle) (cfg : TaskConfig)
    (work : Except Unit α) (cd : Bool) (now : Nat) (hc : h.cancelled = true) :
    Task.executeTask h cfg work cd now = (h, []) := by
  simp [Task.executeTask, TaskHandle.isCancelled, hc]

/-- Witness for C5 at a concrete input. -/
theorem executeTask_cancelled_noop_witness :
    Task.executeTask { TaskHandle.init with cancelled := true } {}
      (Except.ok (3 : Nat)) false 9 = ({ TaskHandle.init with cancelled := true }, []) :=
  executeTask_cancelled_noop { TaskHandle.init with cancelled := true } {}
    (Except.ok 3) false 9 rfl

/-- C8: a task whose work callable raises during execution transitions to
`Failed` and no completion callback is delivered through either path — no
error value reaches the embedder via the callback. -/
theorem executeTask_error_fails {α : Type} (h : TaskHandle) (cfg : TaskConfig)
    (e : Unit) (cd : Bool) (now : Nat) (hc : h.cancelled = false) :
    (Task.executeTask (α := α) h cfg (.error e) cd now).1.state = .Failed ∧
    callbackValues (Task.executeTask (α := α) h cfg (.error e) cd now).2 = [] := by
  simp [Task.executeTask, TaskHandle.isCancelled, hc, TaskHandle.setState,
    TaskState.isTerminal, callbackValues]

/-- Witness for C8 at a concrete input. -/
theorem executeTask_error_fails_witness :
    (Task.executeTask (α := Nat) TaskHandle.init {} (.error ()) false 11).1.state = .Failed ∧
    callbackValues (Task.executeTask (α := Nat) TaskHandle.init {} (.error ()) false 11).2 = [] :=
  executeTask_error_fails TaskHandle.init {} () false 11 rfl

/-- C9: `cancel()` on a task that is not `Running` only sets the
cancellation flag — the lifecycle state, context handle and timestamps
are unchanged — and afterwards `isCancelled()` is true while
`isRunning()` is false. -/
theorem cancel_not_running_frame (h : TaskHandle) (now : Nat)
    (hs : h.state ≠ .Running) :
    h.cancel now = { h with cancelled := true } ∧
    (h.cancel now).state = h.state ∧
    (h.cancel now).taskHandle = h.taskHandle ∧
    (h.cancel now).startTime = h.startTime ∧
    (h.cancel now).endTime = h.endTime ∧
    (h.cancel now).isCancelled = true ∧
    (h.cancel now).isRunning = false := by
  have hcan : h.cancel now = { h with cancelled := true } := by
    simp [TaskHandle.cancel, hs]
  refine ⟨hcan, ?_, ?_, ?_, ?_, ?_, ?_⟩ <;>
    simp [hcan, TaskHandle.isCancelled, TaskHandle.isRunning, hs]

/-- Witness for C9 at a concrete input (a `Completed` task). -/
theorem cancel_not_running_frame_witness :
    ({ TaskHandle.init with state := .Completed } : TaskHandle).state ≠ .Running ∧
    ({ TaskHandle.init with state := .Completed } : TaskHandle).cancel 5 =
      { TaskHandle.init with state := .Completed, cancelled := true } :=
  ⟨by decide, (cancel_not_running_frame { TaskHandle.init with state := .Completed }
      5 (by decide)).1⟩

/-- C7: when stack size, priority and core are left at their sentinels
(zero / `tskNO_AFFINITY`), the launch request carries exactly the
process-wide defaults; every field set to a non-sentinel value is used
instead of its default. -/
theorem run_config_resolution (hasFunc : Bool) (cfg : TaskConfig)
    (g : AsyncConfig) (h : TaskHandle) (launch : Option Nat) (now : Nat)
    (req : LaunchRequest) (hf : hasFunc = true)
    (hreq : (Task.run hasFunc cfg g h launch now).2.2 = some req) :
    (cfg.stackSize = 0 → req.stackSize = g.defaultStackSize) ∧
    (cfg.stackSize ≠ 0 → req.stackSize = cfg.stackSize) ∧
    (cfg.priority = 0 → req.priority = g.defaultPriority) ∧
    (cfg.priority ≠ 0 → req.priority = cfg.priority) ∧
    (cfg.core = tskNO_AFFINITY → req.core = g.defaultCore) ∧
    (cfg.core ≠ tskNO_AFFINITY → req.core = cfg.core) := by
  subst hf
  simp only [Task.run, Bool.not_true, Bool.false_eq_true, if_false] at hreq
  have hreq2 : req =
      { stackSize := if cfg.stackSize > 0 then cfg.stackSize else g.defaultStackSize,
        priority := if cfg.priority > 0 then cfg.priority else g.defaultPriority,
        core := if cfg.core ≠ tskNO_AFFINITY then cfg.core else g.defaultCore,
        pinned := (if cfg.core ≠ tskNO_AFFINITY then cfg.core else g.defaultCore)
          ≠ tskNO_AFFINITY } := by
    cases launch <;> simp_all
  subst hreq2
  refine ⟨?_, ?_, ?_, ?_, ?_, ?_⟩ <;> intro hx <;> simp [hx]

/-- Witness for C7: an all-sentinel config resolves to the defaults. -/
theorem run_config_resolution_witness :
    (Task.run true {} {} TaskHandle.init (some 1) 0).2.2 =
      some { stackSize := 4096, priority := 1, core := tskNO_AFFINITY,
             pinned := false } ∧
    (4096 : Nat) = AsyncConfig.defaultStackSize {} ∧
    (1 : Nat) = AsyncConfig.defaultPriority {} ∧
    tskNO_AFFINITY = AsyncConfig.defaultCore {} := by
  have h := run_config_resolution true {} {} TaskHandle.init (some 1) 0
    { stackSize := 4096, priority := 1, core := tskNO_AFFINITY, pinned := false }
    rfl (by simp [Task.run, tskNO_AFFINITY])
  exact ⟨by simp [Task.run, tskNO_AFFINITY],
    (h.1 rfl).symm, (h.2.2.1 rfl).symm, (h.2.2.2.2.1 rfl).symm⟩

/-- C2 counterexample: `run()` on a task with no bound work callable
returns false but leaves the state `Pending` — it is not forced to
`Failed` as the claim states (even with a launcher that would succeed). -/
theorem run_nofunc_not_failed :
    (Task.run false {} {} TaskHandle.init (some 1) 0).1 = false ∧
    (Task.run false {} {} TaskHandle.init (some 1) 0).2.1.state = .Pending ∧
    (Task.run false {} {} TaskHandle.init (some 1) 0).2.1.state ≠ .Failed := by
  refine ⟨rfl, rfl, by decide⟩

/-- C2 amended: when `run()` fails because the launcher could not create
the execution context, the state is forced to `Failed` and `run()`
returns false; when it fails because no work callable is bound, it
returns false with the handle left untouched (a fresh task stays
`Pending`); in neither failure case is any launch request or wrapper body
produced beyond the failed attempt, so no completion callback is ever
delivered. -/
theorem run_failure_behaviour (cfg : TaskConfig) (g : AsyncConfig)
    (h : TaskHandle) (launch : Option Nat) (now : Nat)
    (hfail : launch = none) :
    (Task.run false cfg g h launch now = (false, h, none)) ∧
    ((Task.run true cfg g h launch now).1 = false ∧
      (Task.run true cfg g h launch now).2.1.state = .Failed) := by
  subst hfail
  constructor
  · simp [Task.run]
  · constructor
    · simp [Task.run]
    · simp [Task.run, TaskHandle.setState, TaskState.isTerminal]

/-- Witness for C2 (amended) at a concrete input. -/
theorem run_failure_behaviour_witness :
    (none : Option Nat) = none ∧
    (Task.run true {} {} TaskHandle.init none 3).2.1.state = .Failed :=
  ⟨rfl, (run_failure_behaviour {} {} TaskHandle.init none 3 rfl).2.2⟩

/-- C1 counterexample: with the process-wide `executeCallbacksInLoop`
flag disabled but the per-task `executeInLoop` flag at its default
(true), a normally-completing task enqueues its callback rather than
invoking it inline, and `update()` drains nothing — so the callback is
neither delivered inline nor by `update()`; the delivery path is not
selected by the process-wide flag. -/
theorem delivery_not_selected_by_global_flag :
    (Task.executeTask TaskHandle.init ({} : TaskConfig) (Except.ok (1 : Nat)) false 0).2 =
      [ExecEvent.workRun, ExecEvent.enqueuedCb 1] ∧
    ({} : TaskConfig).executeInLoop = true ∧
    ({ executeCallbacksInLoop := false : AsyncConfig }).executeCallbacksInLoop = false ∧
    Async.update { executeCallbacksInLoop := false } true [5] [] = ([], [5]) := by
  refine ⟨by decide, by decide, by decide, ?_⟩
  simp [Async.update]

/-- C1 amended: `update()` drains the `CallbackQueue` iff the
process-wide `executeCallbacksInLoop` flag is set, but the delivery path
of a completing task is selected by the per-task `TaskConfig.executeInLoop`
flag, not the process-wide one: when the per-task flag is set the
callback is enqueued, otherwise it is invoked inline on the worker; with
the process-wide flag disabled and the per-task flag set, enqueued
callbacks are never drained by `update()`. -/
theorem update_and_delivery (g : AsyncConfig) (cfg : TaskConfig)
    (h : TaskHandle) (q : List Nat) (arrs : List (List Nat)) (v : Nat)
    (now : Nat) :
    (g.executeCallbacksInLoop = true →
      Async.update g true q arrs = (CallbackQueue.processAux q arrs, [])) ∧
    (g.executeCallbacksInLoop = false →
      ∀ lockFree, Async.update g lockFree q arrs = ([], q)) ∧
    (h.cancelled = false →
      (Task.executeTask h cfg (Except.ok v) false now).2 =
        if cfg.executeInLoop then [ExecEvent.workRun, ExecEvent.enqueuedCb v]
        else [ExecEvent.workRun, ExecEvent.inlineCb v]) := by
  refine ⟨fun hg => ?_, fun hg lockFree => ?_, fun hc => ?_⟩
  · simp [Async.update, hg, CallbackQueue.process]
  · simp [Async.update, hg]
  · simp only [Task.executeTask, TaskHandle.isCancelled, hc]
    by_cases hl : cfg.executeInLoop <;> simp [hl]

/-- Witness for C1 (amended) at concrete inputs. -/
theorem update_and_delivery_witness :
    Async.update ({} : AsyncConfig) true [3] [] = (CallbackQueue.processAux [3] [], []) ∧
    (Task.executeTask TaskHandle.init ({} : TaskConfig) (Except.ok (9 : Nat)) false 2).2 =
      (if ({} : TaskConfig).executeInLoop
        then [ExecEvent.workRun, ExecEvent.enqueuedCb 9]
        else [ExecEvent.workRun, ExecEvent.inlineCb 9]) :=
  ⟨(update_and_delivery {} {} TaskHandle.init [3] [] 9 2).1 rfl,
   (update_and_delivery {} {} TaskHandle.init [3] [] 9 2).2.2 rfl⟩

/-- The queue at the start of a drain is a prefix of the execution order:
every thunk enqueued before the drain executes, in FIFO order, before any
thunk that arrives during the drain. -/
theorem processAux_prefix : ∀ (q : List Nat) (arrs : List (List Nat)),
    q <+: CallbackQueue.processAux q arrs
  | [], _ => List.nil_prefix
  | c :: rest, [] => by
      obtain ⟨t, ht⟩ := processAux_prefix rest []
      exact ⟨t, by rw [CallbackQueue.processAux]; simp [ht]⟩
  | c :: rest, b :: arrs => by
      obtain ⟨t, ht⟩ := processAux_prefix (rest ++ b) arrs
      exact ⟨b ++ t, by rw [CallbackQueue.processAux]; simp [← ht]⟩
termination_by q arrs => q.length + (arrs.map List.length).sum
decreasing_by
  all_goals simp [List.length_append]
  omega

/-- C6: a drain that acquires the lock executes every thunk enqueued
before it in FIFO submission order (the pre-drain queue is a prefix of
the execution order, so a thunk enqueued earlier executes before one
enqueued later) and leaves the queue empty; a drain that misses the lock
leaves the queue untouched. -/
theorem process_fifo (q : List Nat) (arrs : List (List Nat)) :
    q <+: (CallbackQueue.process true q arrs).1 ∧
    (CallbackQueue.process true q arrs).1.take q.length = q ∧
    (CallbackQueue.process true q arrs).2 = [] ∧
    CallbackQueue.process false q arrs = ([], q) := by
  have hp := processAux_prefix q arrs
  refine ⟨by simpa [CallbackQueue.process] using hp, ?_, rfl, rfl⟩
  obtain ⟨t, ht⟩ := hp
  simp [CallbackQueue.process, ← ht]

/-- C10 counterexample: a task whose execution context is recorded at
clock time 0 has its start time stamped, is unterminated, and yet
`getExecutionTime(now)` returns 0 instead of `now - start`: the zero
sentinel aliases a genuine start at clock 0. -/
theorem executionTime_start_zero_alias :
    (TaskHandle.init.setHandle 7 0).startTime = 0 ∧
    (TaskHandle.init.setHandle 7 0).state = .Running ∧
    (TaskHandle.init.setHandle 7 0).endTime = 0 ∧
    (TaskHandle.init.setHandle 7 0).getExecutionTime 100 = 0 ∧
    sub32 100 (TaskHandle.init.setHandle 7 0).startTime = 100 := by
  refine ⟨rfl, rfl, rfl, rfl, by decide⟩

/-- A mutating operation on a `TaskHandle`, for reasoning about
operation sequences. -/
inductive TaskHandleOp where
  | opSetHandle (v : Nat) (now : Nat)
  | opSetState (s : TaskState) (now : Nat)
  | opCancel (now : Nat)
deriving Repr, DecidableEq

/-- Apply one `TaskHandle` operation. -/
def TaskHandleOp.apply (h : TaskHandle) : TaskHandleOp → TaskHandle
  | .opSetHandle v now => h.setHandle v now
  | .opSetState s now => h.setState s now
  | .opCancel now => h.cancel now

/-- Apply a sequence of `TaskHandle` operations, oldest first. -/
def applyOps (h : TaskHandle) (ops : List TaskHandleOp) : TaskHandle :=
  ops.foldl TaskHandleOp.apply h

/-- Whether an operation is `setHandle` (the only start-time stamp). -/
def TaskHandleOp.stampsStart : TaskHandleOp → Bool
  | .opSetHandle _ _ => true
  | _ => false

/-- `setState` and `cancel` never touch the start timestamp. -/
theorem applyOps_startTime (ops : List TaskHandleOp) :
    ∀ h : TaskHandle, (∀ op ∈ ops, op.stampsStart = false) →
      (applyOps h ops).startTime = h.startTime := by
  induction ops with
  | nil => intro h _; rfl
  | cons op rest ih =>
    intro h hops
    have hop := hops op (List.mem_cons_self op rest)
    have hrest : ∀ op ∈ rest, op.stampsStart = false :=
      fun o ho => hops o (List.mem_cons_of_mem op ho)
    have hstep : (TaskHandleOp.apply h op).startTime = h.startTime := by
      cases op with
      | opSetHandle v now => simp [TaskHandleOp.stampsStart] at hop
      | opSetState s now =>
        simp only [TaskHandleOp.apply, TaskHandle.setState]
        split <;> rfl
      | opCancel now =>
        simp only [TaskHandleOp.apply, TaskHandle.cancel]
        split
        · simp [TaskHandle.setState, TaskState.isTerminal]
        · rfl
    calc (applyOps (TaskHandleOp.apply h op) rest).startTime
        = (TaskHandleOp.apply h op).startTime := ih _ hrest
      _ = h.startTime := hstep

/-- C10 amended: `getExecutionTime()` returns 0 for every task whose
start time was never stamped — no `setHandle` in its history, regardless
of prior `cancel()` calls or state changes such as a launch-failure
transition to `Failed`; once the start time is stamped to a NONZERO clock
value and the task is unterminated it returns now minus start, and once
the end time is stamped to a nonzero value it returns the stored
end-minus-start duration.  (A start or end stamped exactly at clock 0
aliases the "never stamped" sentinel; see the counterexample.) -/
theorem executionTime_characterisation (ops : List TaskHandleOp) (now : Nat)
    (hops : ∀ op ∈ ops, op.stampsStart = false) :
    (applyOps TaskHandle.init ops).getExecutionTime now = 0 ∧
    (∀ h : TaskHandle, h.startTime ≠ 0 → h.endTime = 0 →
      h.getExecutionTime now = sub32 now h.startTime) ∧
    (∀ h : TaskHandle, h.startTime ≠ 0 → h.endTime ≠ 0 →
      h.getExecutionTime now = sub32 h.endTime h.startTime) := by
  refine ⟨?_, ?_, ?_⟩
  · have hst : (applyOps TaskHandle.init ops).startTime = 0 :=
      applyOps_startTime ops TaskHandle.init hops
    simp [TaskHandle.getExecutionTime, hst]
  · intro h hs he; simp [TaskHandle.getExecutionTime, hs, he]
  · intro h hs he; simp [TaskHandle.getExecutionTime, hs, he]

/-- Witness for C10 (amended): a task cancelled while `Pending` and then
forced to `Failed` by a launch failure still reports execution time 0. -/
theorem executionTime_characterisation_witness :
    (∀ op ∈ [TaskHandleOp.opCancel 5, TaskHandleOp.opSetState .Failed 9],
      op.stampsStart = false) ∧
    (applyOps TaskHandle.init
      [TaskHandleOp.opCancel 5, TaskHandleOp.opSetState .Failed 9]).getExecutionTime 100 = 0 :=
  ⟨by decide,
   (executionTime_characterisation
     [TaskHandleOp.opCancel 5, TaskHandleOp.opSetState .Failed 9] 100 (by decide)).1⟩

/-- C3 counterexample: `setState()` — one of the operations the claim
ranges over — moves a `Completed` task back to `Pending`: the lifecycle
regresses and revisits `Pending` after a terminal state. -/
theorem lifecycle_regression :
    (TaskHandle.init.setState .Completed 5).state = .Completed ∧
    ((TaskHandle.init.setState .Completed 5).setState .Pending 6).state = .Pending := by
  exact ⟨rfl, rfl⟩

/-- Rank of a lifecycle state along `Pending → Running → terminal`. -/
def TaskState.rank : TaskState → Nat
  | .Pending => 0
  | .Running => 1
  | _ => 2

/-- One orchestrated step on a task's handle: `run()` applied to a still
`Pending` task, `cancel()` at any time, or the wrapper body
(`executeTask`) running before the task has reached a terminal state. -/
inductive TaskStep : TaskHandle → TaskHandle → Prop where
  | runStep (hasFunc : Bool) (cfg : TaskConfig) (g : AsyncConfig)
      (launch : Option Nat) (now : Nat) (h : TaskHandle)
      (hp : h.state = .Pending) :
      TaskStep h (Task.run hasFunc cfg g h launch now).2.1
  | cancelStep (now : Nat) (h : TaskHandle) : TaskStep h (h.cancel now)
  | execStep (cfg : TaskConfig) (work : Except Unit Nat) (cd : Bool)
      (now : Nat) (h : TaskHandle)
      (hp : h.state = .Pending ∨ h.state = .Running) :
      TaskStep h (Task.executeTask h cfg work cd now).1

/-- Each orchestrated step is monotone in rank and never leaves a
terminal state. -/
theorem taskStep_mono {h h' : TaskHandle} (hs : TaskStep h h') :
    h.state.rank ≤ h'.state.rank ∧
    (h.state.isTerminal = true → h'.state = h.state) := by
  cases hs with
  | runStep hasFunc cfg g launch now h hp =>
    constructor
    · simp only [Task.run]
      cases hasFunc with
      | false => simp
      | true =>
        cases launch with
        | none => simp [TaskHandle.setState, TaskState.isTerminal, hp, TaskState.rank]
        | some v => simp [TaskHandle.setHandle, hp, TaskState.rank]
    · intro hterm; rw [hp] at hterm; simp [TaskState.isTerminal] at hterm
  | cancelStep now h =>
    constructor
    · simp only [TaskHandle.cancel]
      split
      · next hcond =>
        have : h.state = .Running := hcond.2
        simp [TaskHandle.setState, TaskState.isTerminal, this, TaskState.rank]
      · simp
    · intro hterm
      simp only [TaskHandle.cancel]
      split
      · next hcond =>
        rw [hcond.2] at hterm
        simp [TaskState.isTerminal] at hterm
      · rfl
  | execStep cfg work cd now h hp =>
    constructor
    · have hr : h.state.rank ≤ 2 := by
        rcases hp with hp | hp <;> simp [hp, TaskState.rank]
      simp only [Task.executeTask]
      split
      · simp
      · split
        · simpa [TaskHandle.setState, TaskState.isTerminal, TaskState.rank] using hr
        · split
          · split <;>
              simpa [TaskHandle.setState, TaskState.isTerminal, TaskState.rank] using hr
          · simp
    · intro hterm
      rcases hp with hp | hp <;> rw [hp] at hterm <;>
        simp [TaskState.isTerminal] at hterm

/-- C3 amended: along any sequence of orchestrated steps — `run()` on a
`Pending` task, `cancel()` at any time, and the wrapper body before
termination — the state only moves forward along
`Pending → Running → {Completed|Failed|Cancelled}` (rank never
decreases) and a terminal state, once reached, is never left.  The
original claim over arbitrary call sequences fails because `setState()`
and `setHandle()` overwrite the state unconditionally (see the
counterexample). -/
theorem lifecycle_forward (h h' : TaskHandle)
    (htr : Relation.ReflTransGen TaskStep h h') :
    h.state.rank ≤ h'.state.rank ∧
    (h.state.isTerminal = true → h'.state = h.state) := by
  induction htr with
  | refl => exact ⟨le_refl _, fun _ => rfl⟩
  | @tail b c hstep hlast ih =>
    obtain ⟨ihrank, ihterm⟩ := ih
    obtain ⟨srank, sterm⟩ := taskStep_mono hlast
    refine ⟨le_trans ihrank srank, fun hterm => ?_⟩
    have hb := ihterm hterm
    have hbterm : b.state.isTerminal = true := by rw [hb]; exact hterm
    rw [sterm hbterm, hb]

/-- Witness for C3 (amended): a concrete two-step trace — a successful
`run()` from `Pending`, then a `cancel()` — never decreases the rank. -/
theorem lifecycle_forward_witness :
    Relation.ReflTransGen TaskStep TaskHandle.init
      (((Task.run true {} {} TaskHandle.init (some 4) 2).2.1).cancel 3) ∧
    TaskHandle.init.state.rank ≤
      (((Task.run true {} {} TaskHandle.init (some 4) 2).2.1).cancel 3).state.rank := by
  have h1 : TaskStep TaskHandle.init (Task.run true {} {} TaskHandle.init (some 4) 2).2.1 :=
    TaskStep.runStep true {} {} (some 4) 2 TaskHandle.init rfl
  have h2 : TaskStep (Task.run true {} {} TaskHandle.init (some 4) 2).2.1
      (((Task.run true {} {} TaskHandle.init (some 4) 2).2.1).cancel 3) :=
    TaskStep.cancelStep 3 _
  have htr := Relation.ReflTransGen.tail (Relation.ReflTransGen.single h1) h2
  exact ⟨htr, (lifecycle_forward _ _ htr).1⟩
